import Mathlib

/-!
Verification of the lorebook converter (`LorebookScript.py`).

The script converts loosely-specified lorebook JSON into the SillyTavern
World Info format.  We embed the parsed-JSON data model and the four
Python functions (`get_field`, `parse_keys`, `convert_to_sillytavern`,
`extract_entries`) together with the relevant part of `main`, modelling
Python's dynamic-typing failures (`TypeError` from `in`, indexing and
`<` on unsupported operand types) explicitly with `Except`.
JSON numbers are modelled as integers (no claim depends on fractional
values).
-/

/-- A parsed JSON value.  Objects are association lists in insertion
order (Python dicts preserve insertion order and have unique keys). -/
inductive Json where
  | null
  | bool (b : Bool)
  | num (n : Int)
  | str (s : String)
  | arr (elems : List Json)
  | obj (fields : List (String × Json))


/-- The runtime errors the script can raise while normalizing an entry:
Python `TypeError` (unsupported operand / non-subscriptable type). -/
inductive PyError where
  | typeError


/-- `leadMatch needle hay`: the needle is an initial segment of the
haystack (character-wise). -/
def leadMatch : List Char → List Char → Bool
  | [], _ => true
  | _ :: _, [] => false
  | a :: as, b :: bs => a == b && leadMatch as bs

/-- `occursIn needle hay`: the needle occurs contiguously somewhere in
the haystack — Python's `sub in s` on strings. -/
def occursIn (needle : List Char) : List Char → Bool
  | [] => leadMatch needle []
  | b :: bs => leadMatch needle (b :: bs) || occursIn needle bs

/-- Python `x == name` for a string `name`: only an equal string
compares equal; values of other types are simply unequal (no error). -/
def pyEqStr (name : String) : Json → Bool
  | .str t => t == name
  | _ => false

/-- Python's `name in entry` for a string `name`:
key membership on dicts, substring test on strings, element membership
(by `==`, so only equal strings match) on lists; `TypeError` on
numbers, booleans and `None`. -/
def pyContains (entry : Json) (name : String) : Except PyError Bool :=
  match entry with
  | .obj fields => .ok (fields.lookup name).isSome
  | .str s => .ok (occursIn name.toList s.toList)
  | .arr xs => .ok (xs.any (pyEqStr name))
  | _ => .error .typeError

/-- Python's `entry[name]` for a string `name`: dict lookup succeeds;
strings and lists raise `TypeError` (indices must be integers); other
types are not subscriptable. `get_field` only indexes after a
successful membership test, so the dict lookup is always present. -/
def pyGetItem (entry : Json) (name : String) : Except PyError Json :=
  match entry with
  | .obj fields =>
      match fields.lookup name with
      | some v => .ok v
      | none => .error .typeError
  | _ => .error .typeError

/-- `get_field(entry, *field_names, default=...)`: try the candidate
names in order, return the value of the first one for which
`name in entry` holds, else the default. -/
def get_field (entry : Json) (field_names : List String) (default : Json) :
    Except PyError Json :=
  match field_names with
  | [] => .ok default
  | name :: rest => do
      let b ← pyContains entry name
      if b then pyGetItem entry name else get_field entry rest default

/-- ASCII whitespace as Python's `str.strip()` removes it. -/
def isPySpace (c : Char) : Bool :=
  c == ' ' || c == '\t' || c == '\n' || c == '\r' || c == '\x0b' || c == '\x0c'

/-- Python `s.strip()` on a character list: drop whitespace from both
ends. -/
def stripChars (cs : List Char) : List Char :=
  ((cs.dropWhile isPySpace).reverse.dropWhile isPySpace).reverse

/-- Python `s.split(",")` on a character list: split at every comma;
adjacent commas and boundary commas yield empty pieces. -/
def splitOnComma : List Char → List (List Char)
  | [] => [[]]
  | c :: rest =>
      if c = ',' then [] :: splitOnComma rest
      else
        match splitOnComma rest with
        | [] => [[c]]
        | piece :: pieces => (c :: piece) :: pieces

/-- Python `s.strip()` on a string. -/
def pyStrip (s : String) : String :=
  String.mk (stripChars s.toList)

/-- `parse_keys(value)`: a list passes through unchanged; a string is
split on commas, each piece stripped, empty pieces dropped (the Python
comprehension filters on the stripped piece, then emits it); anything
else yields `[]`. -/
def parse_keys (value : Json) : List Json :=
  match value with
  | .arr xs => xs
  | .str s =>
      (((splitOnComma s.toList).filter (fun k => pyStrip (String.mk k) ≠ "")).map
        (fun k => Json.str (pyStrip (String.mk k))))
  | _ => []

/-- Python truthiness (`bool(x)`), used by `not enabled`. -/
def pyTruthy : Json → Bool
  | .null => false
  | .bool b => b
  | .num n => n ≠ 0
  | .str s => s ≠ ""
  | .arr xs => ¬ xs.isEmpty
  | .obj fields => ¬ fields.isEmpty

/-- Python's numeric view of a value for comparison purposes:
numbers are themselves, booleans are 0/1, everything else is
incomparable with an integer. -/
def pyAsNumber : Json → Option Int
  | .num n => some n
  | .bool b => some (if b then 1 else 0)
  | _ => none

/-- Python's `v < m` against an integer literal `m`: numeric comparison
when `v` is a number or boolean, `TypeError` otherwise. -/
def pyLtInt (v : Json) (m : Int) : Except PyError Bool :=
  match pyAsNumber v with
  | some n => .ok (decide (n < m))
  | none => .error .typeError

/-- The fixed output record built for each entry
(`st_entry` in `convert_to_sillytavern`). -/
structure CanonicalEntry where
  uid : Nat
  key : List Json
  keysecondary : List Json
  comment : Json
  content : Json
  constant : Json
  selective : Bool
  selectiveLogic : Json
  addMemo : Bool
  order : Json
  position : Json
  disable : Bool
  excludeRecursion : Json
  probability : Json
  useProbability : Bool
  depth : Json
  group : Json
  scanDepth : Json
  caseSensitive : Json
  matchWholeWords : Json
  automationId : String
  role : Json
  vectorized : Bool
  displayIndex : Nat


/-- The loop body of `convert_to_sillytavern` for one entry at index
`idx`: field resolution, key coercion and construction of the output
record, in the source's evaluation order.  The `<` on the resolved
probability can raise `TypeError`, as can `get_field` on entries that
are numbers, booleans or `None`. -/
def normalizeEntry (entry : Json) (idx : Nat) : Except PyError CanonicalEntry := do
  let rawKey ← get_field entry ["key", "keys", "keyword", "keywords"] (.arr [])
  let keys := parse_keys rawKey
  let rawSecondary ← get_field entry ["keysecondary", "secondary_keys", "keys_secondary"] (.arr [])
  let keysecondary := parse_keys rawSecondary
  let content ← get_field entry ["content", "text", "entry", "body", "description"] (.str "")
  let comment ← get_field entry ["name", "comment", "title", "memo", "label"]
      (.str ("Entry " ++ toString idx))
  let enabled ← get_field entry ["enabled", "active"] (.bool true)
  let constant ← get_field entry ["constant", "always_active", "permanent"] (.bool false)
  let order ← get_field entry ["insertion_order", "order", "priority", "sort_order"] (.num 100)
  let position ← get_field entry ["position", "insert_position"] (.num 4)
  let depth ← get_field entry ["depth", "scan_depth"] (.num 4)
  let probability ← get_field entry ["probability", "chance", "activation_chance"] (.num 100)
  let case_sensitive ← get_field entry ["case_sensitive", "caseSensitive"] (.bool false)
  let match_whole ← get_field entry ["matchWholeWords", "match_whole_words", "whole_words"] .null
  let selective_logic ← get_field entry ["selectiveLogic", "selective_logic"] (.num 0)
  let exclude_recursion ← get_field entry ["excludeRecursion", "exclude_recursion"] (.bool false)
  let group ← get_field entry ["category", "group", "tag", "folder"] (.str "")
  let useProb ← pyLtInt probability 100
  .ok {
    uid := idx
    key := keys
    keysecondary := keysecondary
    comment := comment
    content := content
    constant := constant
    selective := decide (keysecondary.length > 0)
    selectiveLogic := selective_logic
    addMemo := true
    order := order
    position := position
    disable := ! pyTruthy enabled
    excludeRecursion := exclude_recursion
    probability := probability
    useProbability := useProb
    depth := depth
    group := group
    scanDepth := .null
    caseSensitive := case_sensitive
    matchWholeWords := match_whole
    automationId := ""
    role := .null
    vectorized := false
    displayIndex := idx }

/-- The output document (`result` in `convert_to_sillytavern`): the
entry map keyed by stringified index, in insertion order. -/
structure Document where
  name : String
  description : String
  extensions : List (String × Json)
  entries : List (String × CanonicalEntry)


/-- The `for idx, entry in enumerate(input_data)` loop, starting the
index at `idx`: each entry is normalized and stored under `str(idx)`
in insertion order. -/
def convertEntries : List Json → Nat → Except PyError (List (String × CanonicalEntry))
  | [], _ => .ok []
  | e :: rest, idx => do
      let ce ← normalizeEntry e idx
      let tail ← convertEntries rest (idx + 1)
      .ok ((toString idx, ce) :: tail)

/-- `convert_to_sillytavern(input_data, lorebook_name)`. -/
def convert_to_sillytavern (input_data : List Json) (lorebook_name : String) :
    Except PyError Document := do
  let es ← convertEntries input_data 0
  .ok {
    name := lorebook_name
    description := lorebook_name ++ " World Info"
    extensions := []
    entries := es }

/-- The ordered candidate container keys checked by `extract_entries`. -/
def containerKeys : List String :=
  ["entries", "items", "data", "lorebook", "worldInfo", "world_info"]

/-- The scan loop of `extract_entries` over a dict's fields: the first
candidate key whose value is a list is returned as-is, a dict value
yields its values in insertion order; a key that is absent, or present
with a value of any other type, lets the loop continue. -/
def scanContainers (fields : List (String × Json)) : List String → Option (List Json)
  | [] => none
  | key :: rest =>
      match fields.lookup key with
      | some (.arr xs) => some xs
      | some (.obj kvs) => some (kvs.map Prod.snd)
      | _ => scanContainers fields rest

/-- `extract_entries(data)`: lists pass through; dicts are scanned for
a container key, falling back to the one-element list `[data]`;
anything else yields `[]`. -/
def extract_entries (data : Json) : List Json :=
  match data with
  | .arr xs => xs
  | .obj fields =>
      match scanContainers fields containerKeys with
      | some result => result
      | none => [.obj fields]
  | _ => []

/-- Outcome of `main` after the input JSON has been parsed: either the
no-entries error exit, an uncaught `TypeError` from the conversion, or
success with the document written to the output file. -/
inductive MainOutcome where
  | errorNoEntries
  | uncaught (e : PyError)
  | success (doc : Document)


/-- The tail of `main` after `json.load`: extract entries, exit with an
error when the list is empty (`if not entries`), else convert and
write. -/
def runConversion (raw_data : Json) (output_name : String) : MainOutcome :=
  let entries := extract_entries raw_data
  if entries.isEmpty then .errorNoEntries
  else
    match convert_to_sillytavern entries output_name with
    | .error e => .uncaught e
    | .ok doc => .success doc

/-- Process exit code for each outcome (`sys.exit(1)` for the error
path; an uncaught exception also terminates Python with status 1). -/
def exitCode : MainOutcome → Nat
  | .errorNoEntries => 1
  | .uncaught _ => 1
  | .success _ => 0

/-- The output file's content, when one is written. -/
def outputWritten : MainOutcome → Option Document
  | .success doc => some doc
  | _ => none

/-- `get_field` restricted to dict entries, as a total function: the
value of the first present candidate name, else the default. -/
def objGet (fields : List (String × Json)) : List String → Json → Json
  | [], d => d
  | name :: rest, d =>
      match fields.lookup name with
      | some v => v
      | none => objGet fields rest d

/-- The output record the converter builds for a dict entry, with the
probability comparison's result supplied as `up`. -/
def objEntry (fields : List (String × Json)) (idx : Nat) (up : Bool) : CanonicalEntry where
  uid := idx
  key := parse_keys (objGet fields ["key", "keys", "keyword", "keywords"] (.arr []))
  keysecondary :=
    parse_keys (objGet fields ["keysecondary", "secondary_keys", "keys_secondary"] (.arr []))
  comment := objGet fields ["name", "comment", "title", "memo", "label"]
    (.str ("Entry " ++ toString idx))
  content := objGet fields ["content", "text", "entry", "body", "description"] (.str "")
  constant := objGet fields ["constant", "always_active", "permanent"] (.bool false)
  selective := decide
    ((parse_keys
        (objGet fields ["keysecondary", "secondary_keys", "keys_secondary"] (.arr []))).length > 0)
  selectiveLogic := objGet fields ["selectiveLogic", "selective_logic"] (.num 0)
  addMemo := true
  order := objGet fields ["insertion_order", "order", "priority", "sort_order"] (.num 100)
  position := objGet fields ["position", "insert_position"] (.num 4)
  disable := ! pyTruthy (objGet fields ["enabled", "active"] (.bool true))
  excludeRecursion := objGet fields ["excludeRecursion", "exclude_recursion"] (.bool false)
  probability := objGet fields ["probability", "chance", "activation_chance"] (.num 100)
  useProbability := up
  depth := objGet fields ["depth", "scan_depth"] (.num 4)
  group := objGet fields ["category", "group", "tag", "folder"] (.str "")
  scanDepth := .null
  caseSensitive := objGet fields ["case_sensitive", "caseSensitive"] (.bool false)
  matchWholeWords := objGet fields ["matchWholeWords", "match_whole_words", "whole_words"] .null
  automationId := ""
  role := .null
  vectorized := false
  displayIndex := idx


/-- All candidate input field names the normalizer recognizes. -/
def recognizedNames : List String :=
  ["key", "keys", "keyword", "keywords",
   "keysecondary", "secondary_keys", "keys_secondary",
   "content", "text", "entry", "body", "description",
   "name", "comment", "title", "memo", "label",
   "enabled", "active",
   "constant", "always_active", "permanent",
   "insertion_order", "order", "priority", "sort_order",
   "position", "insert_position",
   "depth", "scan_depth",
   "probability", "chance", "activation_chance",
   "case_sensitive", "caseSensitive",
   "matchWholeWords", "match_whole_words", "whole_words",
   "selectiveLogic", "selective_logic",
   "excludeRecursion", "exclude_recursion",
   "category", "group", "tag", "folder"]

/-- The all-default output record at index `idx`, produced when no
recognized field name resolves. -/
def defaultEntryAt (idx : Nat) : CanonicalEntry where
  uid := idx
  key := []
  keysecondary := []
  comment := .str ("Entry " ++ toString idx)
  content := .str ""
  constant := .bool false
  selective := false
  selectiveLogic := .num 0
  addMemo := true
  order := .num 100
  position := .num 4
  disable := false
  excludeRecursion := .bool false
  probability := .num 100
  useProbability := false
  depth := .num 4
  group := .str ""
  scanDepth := .null
  caseSensitive := .bool false
  matchWholeWords := .null
  automationId := ""
  role := .null
  vectorized := false
  displayIndex := idx

/-- A container value the extractor can interpret: a list or a dict. -/
def usableContainer : Json → Bool
  | .arr _ => true
  | .obj _ => true
  | _ => false

/-- `parse_keys` as the spec words it: split on commas, trim
surrounding whitespace from each piece, then drop the empty pieces. -/
def parseKeysSpec (value : Json) : List Json :=
  match value with
  | .arr xs => xs
  | .str s =>
      (((splitOnComma s.toList).map (fun k => pyStrip (String.mk k))).filter
        (fun k => k ≠ "")).map Json.str
  | _ => []

/-- The document produced for the one-entry input `[{}]` with output
name `"X"`. -/
def c3doc : Document where
  name := "X"
  description := "X World Info"
  extensions := []
  entries := [("0", defaultEntryAt 0)]


/-! ## Helper lemmas about the embedding -/

theorem except_bind_ok {α β : Type} {x : Except PyError α} {f : α → Except PyError β} {b : β} :
    x >>= f = Except.ok b ↔ ∃ a, x = Except.ok a ∧ f a = Except.ok b := by
  cases x <;> simp [Bind.bind, Except.bind]

theorem except_bind_ok_of {α β : Type} {x : Except PyError α} {f : α → Except PyError β} {a : α}
    (hx : x = Except.ok a) {b : β} (hf : f a = Except.ok b) : x >>= f = Except.ok b := by
  subst hx
  exact hf

theorem get_field_obj (fields : List (String × Json)) (names : List String) (d : Json) :
    get_field (.obj fields) names d = .ok (objGet fields names d) := by
  induction names with
  | nil => rfl
  | cons name rest ih =>
      simp only [get_field, objGet, pyContains, Bind.bind, Except.bind]
      cases h : fields.lookup name with
      | none => simp [h, ih]
      | some v => simp [h, pyGetItem]

theorem objGet_absent (fields : List (String × Json)) (names : List String) (d : Json)
    (h : ∀ n ∈ names, (fields.lookup n).isNone = true) :
    objGet fields names d = d := by
  induction names with
  | nil => rfl
  | cons name rest ih =>
      have h1 : fields.lookup name = none :=
        Option.isNone_iff_eq_none.mp (h name (by simp))
      simp [objGet, h1, ih (fun n hn => h n (by simp [hn]))]

theorem objGet_findSome (fields : List (String × Json)) (names : List String) (d : Json) :
    objGet fields names d = ((names.findSome? fun n => fields.lookup n).getD d) := by
  induction names with
  | nil => rfl
  | cons name rest ih =>
      simp only [objGet, List.findSome?_cons]
      cases h : fields.lookup name <;> simp [h, ih]

theorem normalizeEntry_obj (fields : List (String × Json)) (idx : Nat) :
    normalizeEntry (.obj fields) idx =
      (pyLtInt (objGet fields ["probability", "chance", "activation_chance"] (.num 100)) 100).map
        (objEntry fields idx) := by
  simp only [normalizeEntry, get_field_obj, Bind.bind, Except.bind]
  cases h :
      pyLtInt (objGet fields ["probability", "chance", "activation_chance"] (.num 100)) 100 <;>
    simp [h, Except.map, objEntry]

theorem normalizeEntry_ok_spec (e : Json) (idx : Nat) (ce : CanonicalEntry)
    (h : normalizeEntry e idx = .ok ce) :
    ce.uid = idx ∧ ce.displayIndex = idx ∧
    get_field e ["probability", "chance", "activation_chance"] (.num 100) = .ok ce.probability ∧
    pyLtInt ce.probability 100 = .ok ce.useProbability ∧
    (∃ en, get_field e ["enabled", "active"] (.bool true) = .ok en ∧
        ce.disable = ! pyTruthy en) ∧
    (∃ ks, get_field e ["keysecondary", "secondary_keys", "keys_secondary"] (.arr []) = .ok ks ∧
        ce.keysecondary = parse_keys ks) ∧
    ce.selective = decide (ce.keysecondary.length > 0) := by
  simp only [normalizeEntry, except_bind_ok, Except.ok.injEq] at h
  obtain ⟨k, hk, s2, hs2, cont, hcont, comm, hcomm, en, hen, cst, hcst, ord, hord,
    pos, hpos, dep, hdep, prob, hprob, cs, hcs, mw, hmw, sl, hsl, er, her, grp, hgrp,
    up, hup, hrec⟩ := h
  subst hrec
  exact ⟨rfl, rfl, hprob, hup, ⟨en, hen, rfl⟩, ⟨s2, hs2, rfl⟩, rfl⟩

/-! ## Claims -/

/-- C1 is false as stated: the per-entry normalization is not total
over all JSON values.  On the raw entry `5` (a JSON number) the very
first `get_field` lookup evaluates Python `"key" in 5`, which raises
`TypeError`, so no `CanonicalEntry` is produced. -/
theorem claim_C1_counterexample :
    normalizeEntry (Json.num 5) 0 = .error .typeError := rfl

/-- C1 (amended): the per-entry normalization returns a
`CanonicalEntry` and raises no error for every object (dict) entry
whose resolved probability value is numeric (a number or a boolean,
including the default `100` when the field is absent); it is not total
over non-object entries: a number, boolean or null entry raises
`TypeError` from the first membership test. -/
theorem claim_C1_amended :
    (∀ (fields : List (String × Json)) (idx : Nat),
        (pyAsNumber (objGet fields ["probability", "chance", "activation_chance"]
            (Json.num 100))).isSome = true →
        ∃ ce, normalizeEntry (Json.obj fields) idx = .ok ce) ∧
    (∀ (n : Int) (idx : Nat), normalizeEntry (Json.num n) idx = .error .typeError) ∧
    (∀ (b : Bool) (idx : Nat), normalizeEntry (Json.bool b) idx = .error .typeError) ∧
    (∀ idx : Nat, normalizeEntry Json.null idx = .error .typeError) := by
  refine ⟨?_, fun n idx => rfl, fun b idx => rfl, fun idx => rfl⟩
  intro fields idx h
  obtain ⟨m, hm⟩ := Option.isSome_iff_exists.mp h
  refine ⟨objEntry fields idx (decide (m < 100)), ?_⟩
  rw [normalizeEntry_obj]
  simp [pyLtInt, hm, Except.map]

/-- Witness for the amended C1 at the empty dict entry. -/
theorem claim_C1_amended_witness :
    (pyAsNumber (objGet [] ["probability", "chance", "activation_chance"]
        (Json.num 100))).isSome = true ∧
    ∃ ce, normalizeEntry (Json.obj []) 0 = .ok ce :=
  ⟨by decide, claim_C1_amended.1 [] 0 (by decide)⟩

/-- C2 is false as stated: on
`{"entries": 1, "items": [{}]}` the first present candidate key
`entries` has an unusable value, yet the extractor does not yield an
empty sequence — it falls through to `items` and returns its list. -/
theorem claim_C2_counterexample :
    extract_entries (.obj [("entries", .num 1), ("items", .arr [.obj []])]) = [.obj []] ∧
    extract_entries (.obj [("entries", .num 1), ("items", .arr [.obj []])]) ≠ [] := by
  have he : extract_entries (.obj [("entries", .num 1), ("items", .arr [.obj []])]) =
      [.obj []] := rfl
  exact ⟨he, by rw [he]; exact List.cons_ne_nil _ _⟩

/-- C2 (amended): when a recognized container key is present but maps
to a value that is neither a list nor a dict, the extractor's scan
falls through to the remaining candidate keys (the unusable key does
not win), and `extract_entries` on a dict is exactly the scan over the
candidate keys with the single-entry fallback. -/
theorem claim_C2_amended (fields : List (String × Json)) (key : String)
    (rest : List String) (v : Json) (hlook : fields.lookup key = some v)
    (hv : usableContainer v = false) :
    scanContainers fields (key :: rest) = scanContainers fields rest ∧
    extract_entries (.obj fields) =
      (match scanContainers fields containerKeys with
        | some result => result
        | none => [.obj fields]) := by
  refine ⟨?_, rfl⟩
  cases v <;> simp_all [scanContainers, usableContainer]

/-- Witness for the amended C2: with `entries` bound to the number `1`,
the scan over the candidate keys continues past `entries`. -/
theorem claim_C2_amended_witness :
    ([("entries", Json.num 1), ("items", Json.arr [Json.obj []])].lookup "entries" =
        some (Json.num 1)) ∧
    usableContainer (Json.num 1) = false ∧
    scanContainers [("entries", Json.num 1), ("items", Json.arr [Json.obj []])]
        ("entries" :: ["items", "data", "lorebook", "worldInfo", "world_info"]) =
      scanContainers [("entries", Json.num 1), ("items", Json.arr [Json.obj []])]
        ["items", "data", "lorebook", "worldInfo", "world_info"] :=
  ⟨rfl, rfl,
    (claim_C2_amended [("entries", Json.num 1), ("items", Json.arr [Json.obj []])]
      "entries" ["items", "data", "lorebook", "worldInfo", "world_info"]
      (Json.num 1) rfl rfl).1⟩

/-- C5: if extraction yields zero entries, `main` reports the
no-entries error, exits with a non-zero status, and writes no output
file. -/
theorem claim_C5_no_entries (raw : Json) (output_name : String)
    (h : extract_entries raw = []) :
    runConversion raw output_name = .errorNoEntries ∧
    exitCode (runConversion raw output_name) ≠ 0 ∧
    outputWritten (runConversion raw output_name) = none := by
  have h1 : runConversion raw output_name = .errorNoEntries := by
    simp [runConversion, h]
  refine ⟨h1, ?_, ?_⟩ <;> simp [h1, exitCode, outputWritten]

/-- Witness for C5 at the bare-number input `3`, whose extraction is
empty. -/
theorem claim_C5_witness :
    extract_entries (Json.num 3) = [] ∧
    runConversion (Json.num 3) "MyWorld" = .errorNoEntries :=
  ⟨rfl, (claim_C5_no_entries (Json.num 3) "MyWorld" rfl).1⟩

theorem claim_C6_habs_aux (fields : List (String × Json))
    (h : ∀ n ∈ recognizedNames, (fields.lookup n).isNone = true)
    (names : List String) (d : Json) (hsub : ∀ n ∈ names, n ∈ recognizedNames) :
    objGet fields names d = d :=
  objGet_absent fields names d (fun n hn => h n (hsub n hn))

/-- C6: a raw entry object containing none of the recognized alias
field names normalizes to exactly the default-filled record
`defaultEntryAt idx` (comment `"Entry idx"`, empty content and key
lists, order 100, position 4, depth 4, probability 100, all flags
false, `matchWholeWords` null). -/
theorem claim_C6_default_filled (fields : List (String × Json)) (idx : Nat)
    (h : ∀ n ∈ recognizedNames, (fields.lookup n).isNone = true) :
    normalizeEntry (.obj fields) idx = .ok (defaultEntryAt idx) := by
  have habs := claim_C6_habs_aux fields h
  have h1 := habs ["key", "keys", "keyword", "keywords"] (Json.arr []) (by decide)
  have h2 := habs ["keysecondary", "secondary_keys", "keys_secondary"] (Json.arr []) (by decide)
  have h3 := habs ["content", "text", "entry", "body", "description"] (Json.str "") (by decide)
  have h4 := habs ["name", "comment", "title", "memo", "label"]
      (Json.str ("Entry " ++ toString idx)) (by decide)
  have h5 := habs ["enabled", "active"] (Json.bool true) (by decide)
  have h6 := habs ["constant", "always_active", "permanent"] (Json.bool false) (by decide)
  have h7 := habs ["insertion_order", "order", "priority", "sort_order"] (Json.num 100) (by decide)
  have h8 := habs ["position", "insert_position"] (Json.num 4) (by decide)
  have h9 := habs ["depth", "scan_depth"] (Json.num 4) (by decide)
  have h10 := habs ["probability", "chance", "activation_chance"] (Json.num 100) (by decide)
  have h11 := habs ["case_sensitive", "caseSensitive"] (Json.bool false) (by decide)
  have h12 := habs ["matchWholeWords", "match_whole_words", "whole_words"] Json.null (by decide)
  have h13 := habs ["selectiveLogic", "selective_logic"] (Json.num 0) (by decide)
  have h14 := habs ["excludeRecursion", "exclude_recursion"] (Json.bool false) (by decide)
  have h15 := habs ["category", "group", "tag", "folder"] (Json.str "") (by decide)
  rw [normalizeEntry_obj, h10]
  simp [pyLtInt, pyAsNumber, Except.map, objEntry, defaultEntryAt, h1, h2, h3, h4, h5, h6,
    h7, h8, h9, h10, h11, h12, h13, h14, h15, parse_keys, pyTruthy]

/-- Witness for C6: a dict with only an unrecognized field normalizes
to the all-default record. -/
theorem claim_C6_witness :
    (∀ n ∈ recognizedNames,
      (([("foo", Json.str "bar")] : List (String × Json)).lookup n).isNone = true) ∧
    normalizeEntry (Json.obj [("foo", Json.str "bar")]) 7 = .ok (defaultEntryAt 7) :=
  ⟨by decide, claim_C6_default_filled [("foo", Json.str "bar")] 7 (by decide)⟩

/-- C7: on a mapping entry, `get_field` returns the value of the first
candidate name present as a key (pure key membership, so explicitly
present falsy values are honored over the default), and the scan comes
up with the default exactly when no candidate name is a key. -/
theorem claim_C7_get_field (fields : List (String × Json)) (names : List String) (d : Json) :
    get_field (.obj fields) names d =
      .ok ((names.findSome? fun n => fields.lookup n).getD d) ∧
    ((names.findSome? fun n => fields.lookup n) = none ↔
      ∀ n ∈ names, fields.lookup n = none) := by
  refine ⟨?_, List.findSome?_eq_none_iff⟩
  rw [get_field_obj, objGet_findSome]

theorem filter_strip_comm (l : List (List Char)) :
    (l.filter fun k => pyStrip (String.mk k) ≠ "").map
        (fun k => Json.str (pyStrip (String.mk k))) =
      ((l.map fun k => pyStrip (String.mk k)).filter fun k => k ≠ "").map Json.str := by
  induction l with
  | nil => rfl
  | cons c cs ih =>
      simp only [ne_eq, decide_not] at ih
      by_cases hc : pyStrip (String.mk c) = "" <;> simp [hc, ih]

/-- C8: `parse_keys` matches the reference definition — lists pass
through unchanged, strings are comma-split with each piece stripped
and empty pieces dropped, and every other type yields the empty list;
in particular `parse_keys "a, b ,,c" = ["a", "b", "c"]`. -/
theorem claim_C8_parse_keys :
    (∀ v, parse_keys v = parseKeysSpec v) ∧
    parse_keys (.str "a, b ,,c") = [.str "a", .str "b", .str "c"] ∧
    (∀ xs, parse_keys (.arr xs) = xs) ∧
    (∀ n, parse_keys (.num n) = []) ∧
    (∀ b, parse_keys (.bool b) = []) ∧
    parse_keys .null = [] ∧
    (∀ fields, parse_keys (.obj fields) = []) := by
  refine ⟨?_, rfl, fun xs => rfl, fun n => rfl, fun b => rfl, rfl, fun fields => rfl⟩
  intro v
  cases v with
  | str s =>
      simp only [parse_keys, parseKeysSpec]
      exact filter_strip_comm (splitOnComma s.toList)
  | null => rfl
  | bool b => rfl
  | num n => rfl
  | arr xs => rfl
  | obj fields => rfl

theorem scanContainers_none (fields : List (String × Json)) (keys : List String)
    (h : ∀ k ∈ keys, ((fields.lookup k).all fun v => ! usableContainer v) = true) :
    scanContainers fields keys = none := by
  induction keys with
  | nil => rfl
  | cons key rest ih =>
      have hk := h key (by simp)
      have hrest := ih (fun k hk2 => h k (by simp [hk2]))
      cases hl : fields.lookup key with
      | none => simp [scanContainers, hl, hrest]
      | some v =>
          rw [hl] at hk
          cases v <;> simp_all [scanContainers, usableContainer, Option.all]

/-- C10: a recognized container key present with an unusable value
(neither list nor dict) does not stop the scan — the remaining
candidate keys are still tried; and a dict in which no candidate key
has a usable value is returned as a one-element sequence containing
the whole dict, never as an empty sequence. -/
theorem claim_C10_fall_through_and_fallback :
    (∀ (fields : List (String × Json)) (key : String) (rest : List String) (v : Json),
        fields.lookup key = some v → usableContainer v = false →
        scanContainers fields (key :: rest) = scanContainers fields rest) ∧
    (∀ fields : List (String × Json),
        (∀ k ∈ containerKeys, ((fields.lookup k).all fun v => ! usableContainer v) = true) →
        extract_entries (Json.obj fields) = [Json.obj fields] ∧
        extract_entries (Json.obj fields) ≠ []) := by
  constructor
  · intro fields key rest v hlook hv
    cases v <;> simp_all [scanContainers, usableContainer]
  · intro fields h
    have hs := scanContainers_none fields containerKeys h
    refine ⟨by simp [extract_entries, hs], by simp [extract_entries, hs]⟩

/-- Witness for C10: `{"entries": "x"}` — the string value is skipped
and the whole dict becomes the single entry. -/
theorem claim_C10_witness :
    scanContainers [("entries", Json.str "x")] ("entries" :: ["items"]) =
      scanContainers [("entries", Json.str "x")] ["items"] ∧
    extract_entries (Json.obj [("entries", Json.str "x")]) =
      [Json.obj [("entries", Json.str "x")]] :=
  ⟨claim_C10_fall_through_and_fallback.1 [("entries", Json.str "x")] "entries" ["items"]
      (Json.str "x") rfl rfl,
   (claim_C10_fall_through_and_fallback.2 [("entries", Json.str "x")] (by decide)).1⟩

theorem convertEntries_spec (input : List Json) (start : Nat)
    (es : List (String × CanonicalEntry)) (h : convertEntries input start = .ok es) :
    es.length = input.length ∧
    ∀ i, i < input.length →
      ∃ ce e, input[i]? = some e ∧ normalizeEntry e (start + i) = .ok ce ∧
        es[i]? = some (toString (start + i), ce) := by
  induction input generalizing start es with
  | nil =>
      simp only [convertEntries] at h
      cases h
      exact ⟨rfl, fun i hi => absurd hi (by simp)⟩
  | cons e rest ih =>
      simp only [convertEntries, except_bind_ok, Except.ok.injEq] at h
      obtain ⟨ce, hce, tail, htail, hes⟩ := h
      subst hes
      obtain ⟨hlen, hspec⟩ := ih (start + 1) tail htail
      refine ⟨by simp [hlen], ?_⟩
      intro i hi
      cases i with
      | zero => exact ⟨ce, e, by simp, by simpa using hce, by simp⟩
      | succ j =>
          have hj : j < rest.length := by simpa using hi
          obtain ⟨ce', e', he', hn', hes'⟩ := hspec j hj
          have harith : start + (j + 1) = start + 1 + j := by omega
          refine ⟨ce', e', by simpa using he', ?_, ?_⟩
          · rw [harith]; exact hn'
          · rw [harith]; simpa using hes'

/-- C3: when the conversion succeeds, each output entry's `uid` and
`displayIndex` equal its zero-based input position, entries are kept
in input order (the `i`-th output comes from the `i`-th raw entry),
and the entry-map keys are exactly `"0"` … `"N-1"` in order. -/
theorem claim_C3_index_invariants (input : List Json) (name : String) (doc : Document)
    (h : convert_to_sillytavern input name = .ok doc) :
    doc.entries.length = input.length ∧
    doc.entries.map Prod.fst = (List.range input.length).map toString ∧
    (∀ i, i < input.length →
      ∃ ce e, input[i]? = some e ∧ normalizeEntry e i = .ok ce ∧
        doc.entries[i]? = some (toString i, ce) ∧ ce.uid = i ∧ ce.displayIndex = i) := by
  simp only [convert_to_sillytavern, except_bind_ok, Except.ok.injEq] at h
  obtain ⟨es, hes, hdoc⟩ := h
  obtain ⟨hlen, hspec⟩ := convertEntries_spec input 0 es hes
  have hentries : doc.entries = es := by rw [← hdoc]
  refine ⟨by rw [hentries]; exact hlen, ?_, ?_⟩
  · rw [hentries]
    apply List.ext_getElem?
    intro i
    by_cases hi : i < input.length
    · obtain ⟨ce, e, -, -, hesi⟩ := hspec i hi
      simp only [Nat.zero_add] at hesi
      simp [hesi, List.getElem?_range hi]
    · have h1 : es[i]? = none := List.getElem?_eq_none (by omega)
      have h2 : (List.range input.length)[i]? = none :=
        List.getElem?_eq_none (by simpa using Nat.not_lt.mp hi)
      simp [h1, h2]
  · intro i hi
    obtain ⟨ce, e, he, hn, hesi⟩ := hspec i hi
    simp only [Nat.zero_add] at hn hesi
    obtain ⟨hu, hd, -, -, -, -, -⟩ := normalizeEntry_ok_spec e i ce hn
    exact ⟨ce, e, he, hn, by rw [hentries]; exact hesi, hu, hd⟩

/-- Witness for C3 at the one-entry input `[{}]`. -/
theorem claim_C3_witness :
    convert_to_sillytavern [Json.obj []] "X" = .ok c3doc ∧
    c3doc.entries.length = ([Json.obj []] : List Json).length ∧
    c3doc.entries.map Prod.fst =
      (List.range ([Json.obj []] : List Json).length).map toString :=
  ⟨rfl, (claim_C3_index_invariants [Json.obj []] "X" c3doc rfl).1,
    (claim_C3_index_invariants [Json.obj []] "X" c3doc rfl).2.1⟩

/-- C4: for every produced entry whose resolved enabled value is a
boolean and whose resolved probability value is a number, the derived
fields are consistent: `selective` is exactly "keysecondary is
non-empty", `useProbability` is exactly "probability < 100", and
`disable` is exactly "not enabled". -/
theorem claim_C4_derived_fields (e : Json) (idx : Nat) (ce : CanonicalEntry)
    (b : Bool) (n : Int)
    (hen : get_field e ["enabled", "active"] (.bool true) = .ok (.bool b))
    (hpr : get_field e ["probability", "chance", "activation_chance"] (.num 100) =
      .ok (.num n))
    (h : normalizeEntry e idx = .ok ce) :
    ce.selective = decide (ce.keysecondary.length > 0) ∧
    ce.probability = .num n ∧
    ce.useProbability = decide (n < 100) ∧
    ce.disable = ! b := by
  obtain ⟨-, -, hprob, hup, ⟨en, hen', hdis⟩, -, hsel⟩ := normalizeEntry_ok_spec e idx ce h
  rw [hpr] at hprob
  injection hprob with hprob
  rw [hen] at hen'
  injection hen' with hen'
  rw [← hen'] at hdis
  simp only [pyTruthy] at hdis
  rw [← hprob] at hup
  simp only [pyLtInt, pyAsNumber, Except.ok.injEq] at hup
  exact ⟨hsel, hprob.symm, hup.symm, hdis⟩

/-- Witness for C4 at the empty dict entry (enabled defaults to true,
probability to 100). -/
theorem claim_C4_witness :
    get_field (Json.obj []) ["enabled", "active"] (Json.bool true) = .ok (Json.bool true) ∧
    get_field (Json.obj []) ["probability", "chance", "activation_chance"] (Json.num 100) =
      .ok (Json.num 100) ∧
    normalizeEntry (Json.obj []) 0 = .ok (defaultEntryAt 0) ∧
    ((defaultEntryAt 0).selective = decide ((defaultEntryAt 0).keysecondary.length > 0) ∧
      (defaultEntryAt 0).probability = Json.num 100 ∧
      (defaultEntryAt 0).useProbability = decide ((100 : Int) < 100) ∧
      (defaultEntryAt 0).disable = ! true) :=
  ⟨rfl, rfl, rfl,
    claim_C4_derived_fields (Json.obj []) 0 (defaultEntryAt 0) true 100 rfl rfl rfl⟩

/-- C9 is false as stated: the entry `{"probability": 500}` converts
successfully and its probability field is 500, outside 0–100 — the
resolved value is passed through without range validation. -/
theorem claim_C9_counterexample :
    (normalizeEntry (Json.obj [("probability", Json.num 500)]) 0).map
        CanonicalEntry.probability = .ok (Json.num 500) ∧
    ¬ ((500 : Int) ≤ 100) :=
  ⟨rfl, by norm_num⟩

/-- C9 (amended): every produced entry's probability field equals the
resolved input value, passed through without range or type validation,
and is `100` exactly when none of `probability`, `chance`,
`activation_chance` is present in a dict entry; no 0–100 range
guarantee holds. -/
theorem claim_C9_amended (e : Json) (idx : Nat) (ce : CanonicalEntry)
    (h : normalizeEntry e idx = .ok ce) :
    get_field e ["probability", "chance", "activation_chance"] (Json.num 100) =
      .ok ce.probability ∧
    (∀ fields, e = Json.obj fields →
      (∀ n ∈ ["probability", "chance", "activation_chance"],
        (fields.lookup n).isNone = true) →
      ce.probability = Json.num 100) := by
  obtain ⟨-, -, hprob, -, -, -, -⟩ := normalizeEntry_ok_spec e idx ce h
  refine ⟨hprob, ?_⟩
  rintro fields rfl habs
  rw [get_field_obj, objGet_absent _ _ _ habs] at hprob
  injection hprob with hprob
  exact hprob.symm

/-- Witness for the amended C9 at the empty dict entry. -/
theorem claim_C9_witness :
    normalizeEntry (Json.obj []) 3 = .ok (defaultEntryAt 3) ∧
    get_field (Json.obj []) ["probability", "chance", "activation_chance"] (Json.num 100) =
      .ok ((defaultEntryAt 3).probability) :=
  ⟨rfl, (claim_C9_amended (Json.obj []) 3 (defaultEntryAt 3) rfl).1⟩
